import Mathlib

/-!
Verification of the release orchestration logic of `fluree/action-gh-release`
(`src/github.ts` and `src/main.ts`), as a shallow embedding in Lean.

The remote release service (GitHub's REST API) and the helpers of `util.ts`
(which is not part of the sources) are modelled from the specification; the
orchestration code itself is translated line by line from the TypeScript.

The file is organised as definitions first, theorems second.
-/

set_option maxHeartbeats 1000000

/-! # Definitions -/

/-- Mirrors the TS interface `Release` (src/github.ts lines 14-21). -/
structure Release where
  id : Nat
  upload_url : String
  html_url : String
  tag_name : String
  body : String
  target_commitish : String
deriving Repr, DecidableEq

/-- The configuration object produced by `parseConfig` in `util.ts` (file not in
the sources; field set taken from its uses in src/github.ts and src/main.ts and
from spec section 6).  An empty string models a falsy/absent string input, the
way the TS code tests string fields with `||`. -/
structure Config where
  github_ref : String
  github_repository : String
  input_name : String
  input_body : String
  input_tag_name : String
  input_draft : Bool
  input_prerelease : Bool
  input_fail_on_unmatched_files : Bool
  input_draft_until_assets_uploaded : Bool
  input_files : List String
deriving Repr, DecidableEq

/-- JS truthiness on strings: `s || d` is `d` when `s` is the empty string. -/
def strOr (s d : String) : String :=
  if s = "" then d else s

/-- JS `String.prototype.replace` with a string pattern replaces the first
occurrence of the pattern only (char-list version). -/
def replaceFirstList (pat repl : List Char) : List Char → List Char
  | [] => if pat = [] then repl else []
  | c :: cs =>
    if pat.isPrefixOf (c :: cs) then repl ++ (c :: cs).drop pat.length
    else c :: replaceFirstList pat repl cs

/-- JS `s.replace(pat, repl)` with a string pattern: first occurrence only. -/
def replaceFirst (s pat repl : String) : String :=
  String.mk (replaceFirstList pat.data repl.data s.data)

/-- `config.github_repository.split("/")` destructured into `[owner, repo]`
(src/github.ts line 175). -/
def splitRepo (s : String) : String × String :=
  match s.splitOn "/" with
  | owner :: repo :: _ => (owner, repo)
  | [owner] => (owner, "")
  | [] => ("", "")

/-- Modelled from the spec: `releaseBody` lives in `util.ts`, which is not among
the sources; per spec sections 3 and 6 it produces the config's body text. -/
def releaseBody (config : Config) : String :=
  config.input_body

/-- `config.input_tag_name || config.github_ref.replace("refs/tags/", "")`
(src/github.ts lines 176-177 and 247-248). -/
def resolvedTag (config : Config) : String :=
  strOr config.input_tag_name (replaceFirst config.github_ref "refs/tags/" "")

/-- Parameters of `Releaser.getReleaseByTag` / `findRelease`
(src/github.ts lines 24-35). -/
structure FindParams where
  owner : String
  repo : String
  tag : String
  draft : Bool
deriving Repr, DecidableEq

/-- Parameters of `Releaser.createRelease` (src/github.ts lines 37-45). -/
structure CreateParams where
  owner : String
  repo : String
  tag_name : String
  name : String
  body : Option String
  draft : Option Bool
  prerelease : Option Bool
deriving Repr, DecidableEq

/-- Parameters of `Releaser.updateRelease` (src/github.ts lines 47-57); the
optional fields model the `?`-marked keys of the TS interface, `none` standing
for a key left out of the request. -/
structure UpdateParams where
  owner : String
  repo : String
  release_id : Nat
  tag_name : Option String
  target_commitish : Option String
  name : Option String
  body : Option String
  draft : Option Bool
  prerelease : Option Bool
deriving Repr, DecidableEq

/-- The `Releaser` interface (src/github.ts lines 23-63) as a response oracle:
the `Nat` argument is the index of the `release()` iteration issuing the call,
so responses may differ between retries (modelling a remote service whose state
changes between calls).  An error response carries the HTTP status code the TS
code reads from `error.status`. -/
structure Releaser where
  findResp : Nat → FindParams → Except Nat Release
  createResp : Nat → CreateParams → Except Nat Release
  updateResp : Nat → UpdateParams → Except Nat Release

/-- The argument record of the `findRelease` call in `release()`
(src/github.ts lines 179-184); `config.input_draft || false` collapses to
`config.input_draft` since the field is boolean. -/
def findParamsOf (config : Config) : FindParams :=
  { owner := (splitRepo config.github_repository).1
    repo := (splitRepo config.github_repository).2
    tag := resolvedTag config
    draft := config.input_draft }

/-- The argument record of the `updateRelease` call in the found branch of
`release()` (src/github.ts lines 186-204). -/
def updateParamsOf (config : Config) (existingRelease : Release) : UpdateParams :=
  { owner := (splitRepo config.github_repository).1
    repo := (splitRepo config.github_repository).2
    release_id := existingRelease.id
    tag_name := some (resolvedTag config)
    target_commitish := some existingRelease.target_commitish
    name := some (strOr config.input_name (resolvedTag config))
    body := some (existingRelease.body ++ "\n" ++ releaseBody config)
    draft := some config.input_draft
    prerelease := some config.input_prerelease }

/-- The argument record of the `createRelease` call in the 404 branch of
`release()` (src/github.ts lines 208-223). -/
def createParamsOf (config : Config) : CreateParams :=
  { owner := (splitRepo config.github_repository).1
    repo := (splitRepo config.github_repository).2
    tag_name := resolvedTag config
    name := strOr config.input_name (resolvedTag config)
    body := some (releaseBody config)
    draft := some config.input_draft
    prerelease := some config.input_prerelease }

/-- `release(config, releaser)` (src/github.ts lines 171-239).  The `try` block
spans both `findRelease` and `updateRelease`, so a 404 from either reaches the
create path; any `createRelease` failure recurses into `release` again
(line 230); a non-404 error from the `try` block is rethrown (line 236).
`fuel` bounds the recursion depth (`none` = still recursing when the fuel runs
out), and `i` numbers the iteration for the oracle. -/
def release (fuel : Nat) (config : Config) (releaser : Releaser) (i : Nat) :
    Option (Except Nat Release) :=
  match fuel with
  | 0 => none
  | fuel + 1 =>
    let tryResult : Except Nat Release :=
      match releaser.findResp i (findParamsOf config) with
      | .error e => .error e
      | .ok existingRelease =>
        releaser.updateResp i (updateParamsOf config existingRelease)
    match tryResult with
    | .ok r => some (.ok r)
    | .error e =>
      if e = 404 then
        match releaser.createResp i (createParamsOf config) with
        | .ok r => some (.ok r)
        | .error _ => release fuel config releaser (i + 1)
      else
        some (.error e)

deriving instance DecidableEq for Except

/-! ## Concrete items used by counterexamples and witnesses -/

/-- A concrete release value with identifier `n`. -/
def exRel (n : Nat) : Release :=
  { id := n, upload_url := "u", html_url := "h", tag_name := "v1", body := "b",
    target_commitish := "main" }

/-- A concrete configuration: tag taken from the ref, nothing overridden. -/
def cfg0 : Config :=
  { github_ref := "refs/tags/v1", github_repository := "o/r", input_name := "",
    input_body := "notes", input_tag_name := "", input_draft := false,
    input_prerelease := false, input_fail_on_unmatched_files := false,
    input_draft_until_assets_uploaded := false, input_files := [] }

/-- A releaser in which the first iteration sees no release (404) and a create
failure with status 500 (not a conflict), while the second iteration finds an
existing release and updates it. -/
def ocx : Releaser :=
  { findResp := fun i _ => if i = 0 then .error 404 else .ok (exRel 7)
    createResp := fun _ _ => .error 500
    updateResp := fun i _ => if i = 0 then .error 404 else .ok (exRel 8) }

/-- A releaser every one of whose responses is a status-500 failure. -/
def oFatal : Releaser :=
  { findResp := fun _ _ => .error 500
    createResp := fun _ _ => .error 500
    updateResp := fun _ _ => .error 500 }

/-- A releaser that always finds release 7 and always answers updates with
release 9. -/
def oFound : Releaser :=
  { findResp := fun _ _ => .ok (exRel 7)
    createResp := fun _ _ => .error 500
    updateResp := fun _ _ => .ok (exRel 9) }

/-- A releaser that persistently yields 404 on find and a conflict on create. -/
def oP404 : Releaser :=
  { findResp := fun _ _ => .error 404
    createResp := fun _ _ => .error 409
    updateResp := fun _ _ => .error 500 }

/-- A releaser whose find always yields 404 and whose create fails with a
conflict for the first `n` iterations, succeeding with `r` from then on: the
shape of the race described in spec section 4.2. -/
def retryOracle (n : Nat) (r : Release) : Releaser :=
  { findResp := fun _ _ => .error 404
    createResp := fun j _ => if j < n then .error 409 else .ok r
    updateResp := fun _ _ => .error 500 }

/-! ## The remote service state (modelled from spec section 4.1) -/

/-- A release as stored by the remote service: the `Release` payload plus the
server-side draft and prerelease flags (the TS `Release` projection does not
carry them, but the service semantics of spec section 4.1 depend on `draft`). -/
structure SRelease where
  rel : Release
  draft : Bool
  prerelease : Bool
deriving Repr, DecidableEq

/-- The remote service's state for one repository: its releases in listing
order. -/
abbrev World := List SRelease

/-- `repos.getReleaseByTag` (spec section 4.1): the first non-draft release
with the tag, or NotFound (404); draft releases are never returned by this
lookup. -/
def wGetByTag (w : World) (tag : String) : Except Nat Release :=
  match w.find? (fun s => !s.draft && s.rel.tag_name == tag) with
  | some s => .ok s.rel
  | none => .error 404

/-- Fixed-size pagination of a list, as `allReleases` serves pages of at most
`per_page` items (src/github.ts lines 129-137; spec section 4.1). -/
def paginateList {α : Type} (per : Nat) (l : List α) : List (List α) :=
  match per, l with
  | _, [] => []
  | 0, l => [l]
  | per + 1, c :: cs => (c :: cs.take per) :: paginateList (per + 1) (cs.drop per)
termination_by l.length
decreasing_by simp [List.length_drop]; omega

/-- The `for await` loop of `GitHubReleaser.findRelease` (src/github.ts lines
89-97): fetch pages one by one, stop at the first page containing a release
with the wanted tag and return that page's first match; also counts the pages
fetched. -/
def scanPages (tag : String) : List (List Release) → Option Release × Nat
  | [] => (none, 0)
  | page :: rest =>
    match page.find? (fun r => r.tag_name == tag) with
    | some r => (some r, 1)
    | none =>
      let (res, n) := scanPages tag rest
      (res, n + 1)

/-- `GitHubReleaser.findRelease` (src/github.ts lines 79-101) over a server
state, instrumented with the number of list pages fetched and whether the
direct `getReleaseByTag` lookup was made: when `draft` is true the paginated
list is scanned and the first match returned; otherwise (or when the scan
exhausts all pages) the call falls through to `getReleaseByTag` (line 100). -/
def findReleaseT (w : World) (tag : String) (draft : Bool) :
    Except Nat Release × Nat × Bool :=
  if draft then
    match scanPages tag (paginateList 100 (w.map (fun s => s.rel))) with
    | (some r, n) => (.ok r, n, false)
    | (none, n) => (wGetByTag w tag, n, true)
  else
    (wGetByTag w tag, 0, true)

/-- `findRelease` over a server state, result only. -/
def wFindRelease (w : World) (tag : String) (draft : Bool) : Except Nat Release :=
  (findReleaseT w tag draft).1

/-- Fresh identifier for a created release: one more than the maximum in use. -/
def freshId (w : World) : Nat := (w.map (fun s => s.rel.id)).foldr max 0 + 1

/-- The release payload the modelled service answers a create request with. -/
def createdRel (w : World) (p : CreateParams) : Release :=
  { id := freshId w, upload_url := "upload", html_url := "html",
    tag_name := p.tag_name, body := p.body.getD "", target_commitish := "main" }

/-- The stored form of a freshly created release. -/
def createdS (w : World) (p : CreateParams) : SRelease :=
  { rel := createdRel w p, draft := p.draft.getD false, prerelease := p.prerelease.getD false }

/-- `repos.createRelease` (spec section 4.1): fails with Conflict (422) when a
release for the tag already exists (the race); otherwise appends a new release
built from the request. -/
def wCreate (w : World) (p : CreateParams) : Except Nat (Release × World) :=
  if w.any (fun s => s.rel.tag_name == p.tag_name) then .error 422
  else .ok (createdRel w p, w ++ [createdS w p])

/-- Partial update of one stored release: unspecified request fields are left
unchanged server-side (spec section 4.1). -/
def applyUpd (p : UpdateParams) (s : SRelease) : SRelease :=
  { rel := { s.rel with
      tag_name := p.tag_name.getD s.rel.tag_name
      target_commitish := p.target_commitish.getD s.rel.target_commitish
      body := p.body.getD s.rel.body }
    draft := p.draft.getD s.draft
    prerelease := p.prerelease.getD s.prerelease }

/-- `repos.updateRelease` (spec section 4.1): partial-field update of the
release with the given identifier, 404 when no release has it. -/
def wUpdate (w : World) (p : UpdateParams) : Except Nat (Release × World) :=
  match w.find? (fun s => s.rel.id == p.release_id) with
  | none => .error 404
  | some s =>
    .ok ((applyUpd p s).rel,
         w.map (fun x => if x.rel.id == p.release_id then applyUpd p x else x))

/-! ## Two concurrent `release()` runs over the shared service state -/

/-- One `release()` invocation as a state machine, one remote call per step,
mirroring src/github.ts lines 171-239: from `start`, `findRelease` leads to the
update step (found), to the create step (404), or to a fatal stop; the update
step's 404 also reaches the create step (the `try` block spans both calls), its
other errors are fatal; a create failure of any status restarts from `start`
(line 230); a successful create or update is terminal. -/
inductive TState where
  | start : TState
  | doUpdate : Release → TState
  | doCreate : TState
  | done : Except Nat Release → TState
deriving Repr, DecidableEq

/-- One atomic step of a `release()` thread against the service state. -/
def tStep (config : Config) : TState → World → TState × World
  | .start, w =>
    match wFindRelease w (resolvedTag config) config.input_draft with
    | .ok ex => (.doUpdate ex, w)
    | .error e => if e = 404 then (.doCreate, w) else (.done (.error e), w)
  | .doUpdate ex, w =>
    match wUpdate w (updateParamsOf config ex) with
    | .ok (r, w2) => (.done (.ok r), w2)
    | .error e => if e = 404 then (.doCreate, w) else (.done (.error e), w)
  | .doCreate, w =>
    match wCreate w (createParamsOf config) with
    | .ok (r, w2) => (.done (.ok r), w2)
    | .error _ => (.start, w)
  | .done res, w => (.done res, w)

/-- Two concurrent `release()` invocations with the same configuration,
interleaved by a schedule: `true` steps the first thread, `false` the second;
each remote call is atomic at the service (spec section 5). -/
def runSched (config : Config) : List Bool → TState × TState × World → TState × TState × World
  | [], st => st
  | b :: rest, (s1, s2, w) =>
    if b then
      let (s1b, w2) := tStep config s1 w
      runSched config rest (s1b, s2, w2)
    else
      let (s2b, w2) := tStep config s2 w
      runSched config rest (s1, s2b, w2)

/-- How many stored releases carry tag `t`. -/
def tagCount (w : World) (t : String) : Nat :=
  (w.filter (fun s => s.rel.tag_name == t)).length

/-- The central invariant of spec section 3: at most one release per tag. -/
def atMostOnePerTag (w : World) : Prop := ∀ t, tagCount w t ≤ 1

/-- Well-formedness of the service state: release identifiers are unique. -/
def uniqIds (w : World) : Prop := (w.map (fun s => s.rel.id)).Nodup

/-- The per-thread proof obligation: a thread about to update `ex` has found it
in the state tagged with the resolved tag, and every release so tagged is it. -/
def tsInv (config : Config) : TState → World → Prop
  | .doUpdate ex, w =>
    (∃ x ∈ w, x.rel.id = ex.id ∧ x.rel.tag_name = resolvedTag config) ∧
    ∀ x ∈ w, x.rel.tag_name = resolvedTag config → x.rel.id = ex.id
  | _, _ => True

/-! ## The `run()` workflow (src/main.ts) -/

/-- Observable events of one `run()` (src/main.ts): console warnings and
remote calls, in program order. -/
inductive REvent where
  | warnUnmatched : String → REvent
  | warnNoFiles : REvent
  | apiFind : Nat → REvent
  | apiCreate : Nat → REvent
  | apiUpdate : Nat → REvent
  | apiUpload : String → REvent
  | apiPublish : Nat → REvent
deriving Repr, DecidableEq

/-- Is the event the publish call of src/main.ts line 65? -/
def isPublishEv : REvent → Bool
  | .apiPublish _ => true
  | _ => false

/-- Is the event a remote (network) call at all? -/
def isApiEv : REvent → Bool
  | .apiFind _ => true
  | .apiCreate _ => true
  | .apiUpdate _ => true
  | .apiUpload _ => true
  | .apiPublish _ => true
  | _ => false

/-- Modelled from the spec: glob expansion, the out-of-scope collaborator of
spec section 1 behind `paths`/`unmatchedPatterns` of util.ts (not among the
sources): `matches` gives the files a pattern expands to. -/
structure Fs where
  globMatches : String → List String

/-- Modelled from the spec: `isTag` of util.ts (not among the sources); a ref
denotes a tag when it lives under the tag namespace, the known prefix of spec
section 4.2 step 1. -/
def isTag (ref : String) : Bool :=
  List.isPrefixOf "refs/tags/".data ref.data

/-- Modelled from the spec: `unmatchedPatterns` of util.ts (not among the
sources; spec sections 7 and 8): the input patterns matching no files. -/
def unmatchedPatterns (fs : Fs) (patterns : List String) : List String :=
  patterns.filter (fun p => (fs.globMatches p).isEmpty)

/-- Modelled from the spec: `paths` of util.ts (not among the sources): all
files the patterns expand to. -/
def pathsOf (fs : Fs) (patterns : List String) : List String :=
  (patterns.map fs.globMatches).flatten

/-- `release()` again (src/github.ts lines 171-239), instrumented with the
remote calls it makes; the control flow is exactly that of `release` above. -/
def releaseT (fuel : Nat) (config : Config) (releaser : Releaser) (i : Nat) :
    Option (Except Nat Release) × List REvent :=
  match fuel with
  | 0 => (none, [])
  | fuel + 1 =>
    let tryResult : Except Nat Release × List REvent :=
      match releaser.findResp i (findParamsOf config) with
      | .error e => (.error e, [.apiFind i])
      | .ok existingRelease =>
        match releaser.updateResp i (updateParamsOf config existingRelease) with
        | .ok r => (.ok r, [.apiFind i, .apiUpdate i])
        | .error e => (.error e, [.apiFind i, .apiUpdate i])
    match tryResult with
    | (.ok r, evs) => (some (.ok r), evs)
    | (.error e, evs) =>
      if e = 404 then
        match releaser.createResp i (createParamsOf config) with
        | .ok r => (some (.ok r), evs ++ [.apiCreate i])
        | .error _ =>
          let rest := releaseT fuel config releaser (i + 1)
          (rest.1, evs ++ [.apiCreate i] ++ rest.2)
      else (some (.error e), evs)

/-- Outcome of one `run()` (src/main.ts lines 7-75): `setFailed` with a
message, or success with the url and upload_url outputs; `hung` marks a run
whose release retry loop outlived the fuel. -/
inductive RunOutcome where
  | failed : String → RunOutcome
  | success : String → String → RunOutcome
  | hung : RunOutcome
deriving Repr, DecidableEq

/-- `run()` (src/main.ts lines 7-75), with the warnings and remote calls it
emits in order.  `let initialConfig = config` (line 46) binds the same mutable
object, so `initialConfig.input_draft = true` (line 49) is visible through
`config` too: the model accordingly threads one updated `config` value through
both the release call (line 52) and the publish condition (line 62).  An empty
`input_files` list models an absent files input. -/
def runModel (relFuel : Nat) (cfg : Config) (fs : Fs) (releaser : Releaser) :
    RunOutcome × List REvent :=
  if cfg.input_tag_name = "" ∧ ¬ (isTag cfg.github_ref = true) then
    (.failed "GitHub Releases requires a tag", [])
  else
    let warnEvs : List REvent :=
      if cfg.input_files ≠ [] then
        (unmatchedPatterns fs cfg.input_files).map (fun p => .warnUnmatched p)
      else []
    if cfg.input_files ≠ [] ∧ unmatchedPatterns fs cfg.input_files ≠ [] ∧
        cfg.input_fail_on_unmatched_files = true then
      (.failed "There were unmatched files", warnEvs)
    else
      let config := if cfg.input_draft_until_assets_uploaded
        then { cfg with input_draft := true } else cfg
      match releaseT relFuel config releaser 0 with
      | (none, evs) => (.hung, warnEvs ++ evs)
      | (some (.error _), evs) => (.failed "release failed", warnEvs ++ evs)
      | (some (.ok rel), evs) =>
        let uploadEvs : List REvent :=
          if config.input_files ≠ [] then
            if (pathsOf fs config.input_files).length = 0 then [.warnNoFiles]
            else (pathsOf fs config.input_files).map (fun p => .apiUpload p)
          else []
        let publishEvs : List REvent :=
          if config.input_draft_until_assets_uploaded ∧ ¬ (config.input_draft = true)
          then [.apiPublish rel.id] else []
        (.success rel.html_url rel.upload_url, warnEvs ++ evs ++ uploadEvs ++ publishEvs)

/-- A glob environment in which no pattern matches anything. -/
def fs0 : Fs := { globMatches := fun _ => [] }

/-- The draft-until-uploaded configuration of claim C4: flag enabled, the
user's desired state non-draft. -/
def cfg4 : Config :=
  { cfg0 with input_draft_until_assets_uploaded := true }

/-- A releaser that accepts a create only when the request marks the release
as a draft, and fails every other call: a run can only succeed against it by
forcing `draft = true`. -/
def oDraftCheck : Releaser :=
  { findResp := fun _ _ => .error 404
    createResp := fun _ p => if p.draft = some true then .ok (exRel 3) else .error 500
    updateResp := fun _ _ => .error 500 }

/-! ## publishRelease and the MIME guess -/

/-- The argument record of `publishRelease`'s `updateRelease` call
(src/github.ts lines 249-254): only owner, repo, the release identifier and
`draft: false` are supplied; every other field is left out of the request.
(The function also computes the tag, lines 247-248, but never uses it.) -/
def publishParamsOf (config : Config) (releaseId : Nat) : UpdateParams :=
  { owner := (splitRepo config.github_repository).1
    repo := (splitRepo config.github_repository).2
    release_id := releaseId
    tag_name := none
    target_commitish := none
    name := none
    body := none
    draft := some false
    prerelease := none }

/-- Modelled from the spec: the extension table of the `mime` package behind
`getType` (src/github.ts line 4, an external dependency): the entries the
claims touch plus a few common ones. -/
def mimeDb : List (String × String) :=
  [("zip", "application/zip"), ("tar", "application/x-tar"),
   ("gz", "application/gzip"), ("txt", "text/plain"),
   ("json", "application/json"), ("html", "text/html")]

/-- The characters after the last dot of a path, `none` when no dot occurs. -/
def afterLastDot : List Char → Option (List Char)
  | [] => none
  | c :: cs =>
    match afterLastDot cs with
    | some e => some e
    | none => if c = '.' then some cs else none

/-- Modelled from the spec: `mime.getType` — the table entry for the path's
extension, `null` when there is no extension or no entry. -/
def getType (path : String) : Option String :=
  match afterLastDot path.data with
  | some e => (mimeDb.find? (fun kv => kv.1 == String.mk e)).map (fun kv => kv.2)
  | none => none

/-- `mimeOrDefault` (src/github.ts lines 149-151): the guessed MIME type, or
the generic binary fallback when the guess comes back empty. -/
def mimeOrDefault (path : String) : String :=
  (getType path).getD "application/octet-stream"

/-- The unmatched-pattern configurations of claim C7: one pattern matching no
files, with the strict flag unset and set. -/
def cfg7a : Config :=
  { cfg0 with input_files := ["dist/*.bin"] }

/-- Like `cfg7a` but with fail-on-unmatched-files enabled. -/
def cfg7b : Config :=
  { cfg0 with input_files := ["dist/*.bin"], input_fail_on_unmatched_files := true }

/-! # Theorems -/

/-! ## Unfolding equations for `release` -/

/-- Found branch: a successful find followed by a successful update returns the
update's result (src/github.ts lines 178-205). -/
theorem release_found_ok (fuel : Nat) (config : Config) (o : Releaser) (i : Nat)
    (ex r : Release) (hf : o.findResp i (findParamsOf config) = .ok ex)
    (hu : o.updateResp i (updateParamsOf config ex) = .ok r) :
    release (fuel + 1) config o i = some (.ok r) := by
  simp [release, hf, hu]

/-- 404 branch: a successful create returns the created release
(src/github.ts lines 214-224). -/
theorem release_create_ok (fuel : Nat) (config : Config) (o : Releaser) (i : Nat)
    (r : Release) (hf : o.findResp i (findParamsOf config) = .error 404)
    (hc : o.createResp i (createParamsOf config) = .ok r) :
    release (fuel + 1) config o i = some (.ok r) := by
  simp [release, hf, hc]

/-- 404 branch: any create failure recurses into the next iteration
(src/github.ts lines 225-231). -/
theorem release_retry_eq (fuel : Nat) (config : Config) (o : Releaser) (i e : Nat)
    (hf : o.findResp i (findParamsOf config) = .error 404)
    (hc : o.createResp i (createParamsOf config) = .error e) :
    release (fuel + 1) config o i = release fuel config o (i + 1) := by
  simp [release, hf, hc]

/-- A non-404 error from the find/update `try` block is rethrown unchanged
(src/github.ts lines 232-237). -/
theorem release_fatal_eq (fuel : Nat) (config : Config) (o : Releaser) (i e : Nat)
    (hf : o.findResp i (findParamsOf config) = .error e) (hne : e ≠ 404) :
    release (fuel + 1) config o i = some (.error e) := by
  simp [release, hf, hne]

/-! ## C1: which createRelease failures are retried -/

/-- Claim C1 as stated is false on the code: with a releaser whose first
iteration yields 404 on find and a non-conflict status-500 failure on create,
`release` does not surface the 500 error at the top level; it retries and
returns the second iteration's successful update instead
(src/github.ts lines 225-231 catch every create error). -/
theorem c1_counterexample :
    release 3 cfg0 ocx 0 = some (.ok (exRel 8)) ∧
    ocx.createResp 0 (createParamsOf cfg0) = .error 500 ∧
    release 3 cfg0 ocx 0 ≠ some (.error 500) :=
  ⟨by decide, by decide, by decide⟩

/-- Claim C1, amended: `release` retries after a `createRelease` failure of
*any* status, not only a conflict (the inner catch of src/github.ts lines
225-231 never rethrows); only a non-404 error escaping the find/update `try`
block is fatal and propagates unchanged (line 236). -/
theorem c1_amended_retry_on_any_create_error :
    ∀ (fuel : Nat) (config : Config) (o : Releaser) (i e : Nat),
      (o.findResp i (findParamsOf config) = .error 404 →
        o.createResp i (createParamsOf config) = .error e →
        release (fuel + 1) config o i = release fuel config o (i + 1))
      ∧ (o.findResp i (findParamsOf config) = .error e → e ≠ 404 →
        release (fuel + 1) config o i = some (.error e)) := by
  intro fuel config o i e
  exact ⟨fun hf hc => release_retry_eq fuel config o i e hf hc,
         fun hf hne => release_fatal_eq fuel config o i e hf hne⟩

/-- Witness for the amended C1 at concrete inputs: a 500 create failure is
retried (the run continues as iteration 1), and a 500 find failure is fatal. -/
theorem c1_amended_witness :
    release 2 cfg0 ocx 0 = release 1 cfg0 ocx 1 ∧
    release 1 cfg0 oFatal 0 = some (.error 500) :=
  ⟨(c1_amended_retry_on_any_create_error 1 cfg0 ocx 0 500).1 (by decide) (by decide),
   (c1_amended_retry_on_any_create_error 0 cfg0 oFatal 0 500).2 (by decide) (by decide)⟩

/-! ## C2: the found branch appends to the existing body -/

/-- Claim C2: whenever `findRelease` yields an existing release, `release`
issues an `updateRelease` whose body is the existing body, a newline, and the
config-derived body (appending, never replacing), with `tag_name` the resolved
tag, `target_commitish` carried over from the existing release, and name,
draft, prerelease derived from the config; on success that update's result is
exactly the value `release` returns (src/github.ts lines 178-205). -/
theorem c2_update_appends_body :
    ∀ (fuel : Nat) (config : Config) (o : Releaser) (i : Nat) (ex r : Release),
    o.findResp i (findParamsOf config) = .ok ex →
    o.updateResp i
      { owner := (splitRepo config.github_repository).1
        repo := (splitRepo config.github_repository).2
        release_id := ex.id
        tag_name := some (resolvedTag config)
        target_commitish := some ex.target_commitish
        name := some (strOr config.input_name (resolvedTag config))
        body := some (ex.body ++ "\n" ++ releaseBody config)
        draft := some config.input_draft
        prerelease := some config.input_prerelease } = .ok r →
    release (fuel + 1) config o i = some (.ok r) := by
  intro fuel config o i ex r hf hu
  exact release_found_ok fuel config o i ex r hf hu

/-- Witness for C2 at a concrete input. -/
theorem c2_witness : release 1 cfg0 oFound 0 = some (.ok (exRel 9)) :=
  c2_update_appends_body 0 cfg0 oFound 0 (exRel 7) (exRel 9) (by decide) (by decide)

/-! ## C9: falsy overrides default to ref-derived values -/

/-- `isPrefixOf` holds of a list and itself followed by anything. -/
theorem isPrefixOf_append_self (l rest : List Char) : l.isPrefixOf (l ++ rest) = true := by
  induction l with
  | nil => simp [List.isPrefixOf]
  | cons c cs ih => simp [List.isPrefixOf, ih]

/-- Replacing the first occurrence of a nonempty pattern in `pat ++ rest`
substitutes at the front. -/
theorem replaceFirstList_append (pat repl rest : List Char) (hp : pat ≠ []) :
    replaceFirstList pat repl (pat ++ rest) = repl ++ rest := by
  match pat, hp with
  | c :: cs, _ =>
    show replaceFirstList (c :: cs) repl ((c :: cs) ++ rest) = repl ++ rest
    rw [List.cons_append]
    unfold replaceFirstList
    rw [← List.cons_append, if_pos (isPrefixOf_append_self (c :: cs) rest), List.drop_left]

/-- Stripping the tag-ref prefix from a ref of the standard shape leaves the
bare tag. -/
theorem replaceFirst_strip (t : String) :
    replaceFirst ("refs/tags/" ++ t) "refs/tags/" "" = t := by
  unfold replaceFirst
  rw [String.data_append, replaceFirstList_append _ _ _ (by decide)]
  show String.mk t.data = t
  cases t
  rfl

/-- Claim C9: with an empty (falsy) tag-name override the tag `release` works
with is derived from the ref by removing the first occurrence of "refs/tags/"
(src/github.ts lines 176-177); with an empty release-name input, the name sent
in both the create and the update request defaults to the resolved tag
(src/github.ts lines 189 and 209). -/
theorem c9_empty_inputs_default :
    ∀ (config : Config) (t : String) (ex : Release),
      (config.input_tag_name = "" →
        resolvedTag config = replaceFirst config.github_ref "refs/tags/" "" ∧
        (config.github_ref = "refs/tags/" ++ t → resolvedTag config = t)) ∧
      (config.input_name = "" →
        (createParamsOf config).name = resolvedTag config ∧
        (updateParamsOf config ex).name = some (resolvedTag config)) := by
  intro config t ex
  constructor
  · intro h
    constructor
    · simp [resolvedTag, strOr, h]
    · intro href
      simp [resolvedTag, strOr, h, href, replaceFirst_strip]
  · intro h
    simp [createParamsOf, updateParamsOf, strOr, h]

/-- Witness for C9 at a concrete input: the tag comes out of the ref, and the
name defaults to it. -/
theorem c9_witness :
    resolvedTag cfg0 = "v1" ∧ (createParamsOf cfg0).name = resolvedTag cfg0 :=
  ⟨((c9_empty_inputs_default cfg0 "v1" (exRel 0)).1 rfl).2 (by decide),
   ((c9_empty_inputs_default cfg0 "v1" (exRel 0)).2 rfl).1⟩

/-! ## C6: unbounded retry and termination -/

/-- The race oracle drives `release` to success after exactly `n` conflicts. -/
theorem retryOracle_run (n : Nat) (r : Release) (config : Config) :
    ∀ (k i : Nat), n ≤ i + k → release (k + 1) config (retryOracle n r) i = some (.ok r) := by
  intro k
  induction k with
  | zero =>
    intro i h
    refine release_create_ok 0 config (retryOracle n r) i r rfl ?_
    show (if i < n then Except.error 409 else Except.ok r) = Except.ok r
    rw [if_neg (by omega)]
  | succ k ih =>
    intro i h
    by_cases hin : n ≤ i
    · refine release_create_ok (k + 1) config (retryOracle n r) i r rfl ?_
      show (if i < n then Except.error 409 else Except.ok r) = Except.ok r
      rw [if_neg (by omega)]
    · have hc : (retryOracle n r).createResp i (createParamsOf config) = Except.error 409 := by
        show (if i < n then Except.error 409 else Except.ok r) = Except.error 409
        rw [if_pos (by omega)]
      rw [release_retry_eq (k + 1) config (retryOracle n r) i 409 rfl hc]
      exact ih (i + 1) (by omega)

/-- Under persistently failing find (404) and create, `release` never
terminates: every fuel bound is exhausted. -/
theorem release_none_of_persistent (config : Config) (o : Releaser)
    (hf : ∀ j p, o.findResp j p = .error 404)
    (hc : ∀ j p, ∃ e, o.createResp j p = .error e) :
    ∀ fuel i, release fuel config o i = none := by
  intro fuel
  induction fuel with
  | zero => intro i; rfl
  | succ fuel ih =>
    intro i
    obtain ⟨e, he⟩ := hc i (createParamsOf config)
    rw [release_retry_eq fuel config o i e (hf i _) he]
    exact ih (i + 1)

/-- A successful `release` run owes its success to some iteration's find or
create succeeding. -/
theorem release_ok_reaches_success (config : Config) (o : Releaser) :
    ∀ (fuel i : Nat) (r : Release), release fuel config o i = some (.ok r) →
    ∃ j, (∃ ex, o.findResp j (findParamsOf config) = .ok ex)
       ∨ (∃ x, o.createResp j (createParamsOf config) = .ok x) := by
  intro fuel
  induction fuel with
  | zero => intro i r h; simp [release] at h
  | succ fuel ih =>
    intro i r h
    cases hfind : o.findResp i (findParamsOf config) with
    | ok ex => exact ⟨i, .inl ⟨ex, hfind⟩⟩
    | error e =>
      by_cases h404 : e = 404
      · subst h404
        cases hcr : o.createResp i (createParamsOf config) with
        | ok x => exact ⟨i, .inr ⟨x, hcr⟩⟩
        | error e2 =>
          rw [release_retry_eq fuel config o i e2 hfind hcr] at h
          exact ih (i + 1) r h
      · rw [release_fatal_eq fuel config o i e hfind h404] at h
        simp at h

/-- Claim C6's "terminates exactly when some iteration's findRelease or
createRelease succeeds" is false as stated: with a releaser none of whose
responses ever succeeds, a fatal non-404 find failure also terminates the run
(src/github.ts line 236 rethrows it). -/
theorem c6_counterexample :
    release 1 cfg0 oFatal 0 = some (.error 500) ∧
    oFatal.findResp 0 (findParamsOf cfg0) = .error 500 ∧
    oFatal.createResp 0 (createParamsOf cfg0) = .error 500 :=
  ⟨by decide, by decide, by decide⟩

/-- Claim C6, amended: `release` enforces no retry-count cap.  Under a releaser
whose find persistently yields 404 and whose create persistently fails it never
terminates; a run returning a release does so only because some iteration's
findRelease or createRelease succeeded; and for every `n` the run survives `n`
consecutive create conflicts and succeeds at attempt `n + 1` (no bound on
retries).  Termination with a surfaced error also occurs when an iteration's
find or update fails with a non-404 status. -/
theorem c6_amended_no_retry_cap :
    (∀ (config : Config) (o : Releaser),
        (∀ j p, o.findResp j p = .error 404) →
        (∀ j p, ∃ e, o.createResp j p = .error e) →
        ∀ fuel i, release fuel config o i = none)
  ∧ (∀ (config : Config) (o : Releaser) (fuel i : Nat) (r : Release),
        release fuel config o i = some (.ok r) →
        ∃ j, (∃ ex, o.findResp j (findParamsOf config) = .ok ex)
           ∨ (∃ x, o.createResp j (createParamsOf config) = .ok x))
  ∧ (∀ (n : Nat) (config : Config) (r : Release),
        release (n + 1) config (retryOracle n r) 0 = some (.ok r)) :=
  ⟨fun config o hf hc => release_none_of_persistent config o hf hc,
   fun config o fuel i r h => release_ok_reaches_success config o fuel i r h,
   fun n config r => retryOracle_run n r config n 0 (by omega)⟩

/-- Witness for the amended C6 at concrete inputs: a persistently failing
releaser exhausts any fuel, and two conflicts are survived. -/
theorem c6_amended_witness :
    release 5 cfg0 oP404 0 = none ∧
    release 3 cfg0 (retryOracle 2 (exRel 2)) 0 = some (.ok (exRel 2)) :=
  ⟨c6_amended_no_retry_cap.1 cfg0 oP404 (fun _ _ => rfl) (fun _ _ => ⟨409, rfl⟩) 5 0,
   c6_amended_no_retry_cap.2.2 2 cfg0 (exRel 2)⟩

/-! ## C3: findRelease enumerates only for drafts -/

/-- Scanning the pages of a paginated list for the first tag match is the same
as a linear search of the whole list. -/
theorem scanPages_paginate (tag : String) :
    ∀ (per : Nat) (l : List Release),
      (scanPages tag (paginateList per l)).1 = l.find? (fun r => r.tag_name == tag) := by
  intro per l
  induction per, l using paginateList.induct with
  | case1 per => simp [paginateList, scanPages]
  | case2 l h => cases h2 : l.find? (fun r => r.tag_name == tag) <;>
      simp [paginateList, scanPages, h2]
  | case3 per c cs ih =>
    have hunfold : paginateList (per + 1) (c :: cs) =
        (c :: cs.take per) :: paginateList (per + 1) (cs.drop per) := by
      rw [paginateList]
    rw [hunfold]
    have hsplit : (c :: cs).find? (fun r => r.tag_name == tag) =
        ((c :: cs.take per) ++ cs.drop per).find? (fun r => r.tag_name == tag) := by
      rw [List.cons_append, List.take_append_drop]
    rw [hsplit, List.find?_append]
    cases hp : (c :: cs.take per).find? (fun r => r.tag_name == tag) with
    | some r => simp [scanPages, hp]
    | none => simp [scanPages, hp, ih]

/-- Claim C3: with `draft = true`, `findRelease` enumerates the paginated
release list, linearly scanning for the first release whose tag matches, and
produces NotFound (404) when the full enumeration completes without a match;
with `draft = false` it fetches no list page and delegates directly to
`getReleaseByTag` (src/github.ts lines 79-101). -/
theorem c3_findRelease_draft_scan :
    ∀ (w : World) (tag : String),
      ((findReleaseT w tag true).1 =
        match (w.map (fun s => s.rel)).find? (fun r => r.tag_name == tag) with
        | some r => .ok r
        | none => .error 404) ∧
      (findReleaseT w tag false).2.1 = 0 ∧
      (findReleaseT w tag false).1 = wGetByTag w tag := by
  intro w tag
  refine ⟨?_, rfl, rfl⟩
  unfold findReleaseT
  rw [if_pos rfl]
  have hfind := scanPages_paginate tag 100 (w.map (fun s => s.rel))
  cases hs : scanPages tag (paginateList 100 (w.map (fun s => s.rel))) with
  | mk res n =>
    rw [hs] at hfind
    have hfind2 : res = (w.map (fun s => s.rel)).find? (fun r => r.tag_name == tag) := hfind
    rw [← hfind2]
    cases res with
    | some r => rfl
    | none =>
      show wGetByTag w tag = Except.error 404
      unfold wGetByTag
      cases hg : w.find? (fun s => !s.draft && s.rel.tag_name == tag) with
      | none => rfl
      | some s =>
        exfalso
        have hmem := List.mem_of_find?_eq_some hg
        have hpred := List.find?_some hg
        have htag : (s.rel.tag_name == tag) = true := by
          simp at hpred
          simp [hpred.2]
        have hnone := List.find?_eq_none.mp hfind2.symm (s.rel) (List.mem_map_of_mem _ hmem)
        rw [htag] at hnone
        exact hnone rfl

/-! ## C5: at most one release per tag, even under a race -/

theorem eq_of_filter_length_le_one {α : Type} (p : α → Bool) (l : List α)
    (h : (l.filter p).length ≤ 1) {a b : α} (ha : a ∈ l) (hb : b ∈ l)
    (hpa : p a = true) (hpb : p b = true) : a = b := by
  have ha2 : a ∈ l.filter p := List.mem_filter.mpr ⟨ha, hpa⟩
  have hb2 : b ∈ l.filter p := List.mem_filter.mpr ⟨hb, hpb⟩
  cases hl : l.filter p with
  | nil => rw [hl] at ha2; exact absurd ha2 (List.not_mem_nil a)
  | cons x xs =>
    cases xs with
    | nil =>
      rw [hl] at ha2 hb2
      simp at ha2 hb2
      rw [ha2, hb2]
    | cons y ys =>
      rw [hl] at h
      simp at h

theorem length_le_one_of_nodup_map_const {α β : Type} (f : α → β) (l : List α) (k : β)
    (hn : (l.map f).Nodup) (hc : ∀ x ∈ l, f x = k) : l.length ≤ 1 := by
  match l with
  | [] => simp
  | [a] => simp
  | a :: b :: l3 =>
    exfalso
    simp at hn
    exact hn.1.1 ((hc a (by simp)).trans (hc b (by simp)).symm)

theorem tagCount_le_one_of_all_id (w : World) (t : String) (k : Nat)
    (hu : uniqIds w) (hall : ∀ x ∈ w, x.rel.tag_name = t → x.rel.id = k) :
    tagCount w t ≤ 1 := by
  apply length_le_one_of_nodup_map_const (fun s => s.rel.id) _ k
  · have hu2 : (w.map (fun s => s.rel.id)).Nodup := hu
    exact List.Nodup.sublist ((List.filter_sublist w).map (fun s => s.rel.id)) hu2
  · intro x hx
    have hx2 := List.mem_filter.mp hx
    exact hall x hx2.1 (by simpa using hx2.2)

theorem tagCount_cons (s : SRelease) (ws : World) (t : String) :
    tagCount (s :: ws) t = (if s.rel.tag_name = t then 1 else 0) + tagCount ws t := by
  by_cases h : s.rel.tag_name = t
  · simp [tagCount, List.filter_cons, h]
    omega
  · simp [tagCount, List.filter_cons, h]

theorem tagCount_map_le (w : World) (f : SRelease → SRelease) (T t : String) (hne : t ≠ T)
    (hf : ∀ x, (f x).rel.tag_name = x.rel.tag_name ∨ (f x).rel.tag_name = T) :
    tagCount (w.map f) t ≤ tagCount w t := by
  induction w with
  | nil => simp [tagCount]
  | cons s ws ih =>
    rw [List.map_cons, tagCount_cons, tagCount_cons]
    by_cases h : (f s).rel.tag_name = t
    · have hs : s.rel.tag_name = t := by
        cases hf s with
        | inl h2 => rw [← h2]; exact h
        | inr h2 => exact absurd (h2 ▸ h).symm hne
      rw [if_pos h, if_pos hs]
      omega
    · rw [if_neg h]
      by_cases hs : s.rel.tag_name = t
      · rw [if_pos hs]; omega
      · rw [if_neg hs]; omega

theorem le_foldr_max (l : List Nat) : ∀ x ∈ l, x ≤ l.foldr max 0 := by
  induction l with
  | nil => simp
  | cons a l2 ih =>
    intro x hx
    rcases List.mem_cons.mp hx with h | h
    · rw [h]; exact le_max_left _ _
    · exact le_trans (ih x h) (le_max_right _ _)

theorem freshId_not_used (w : World) : ∀ s ∈ w, s.rel.id ≠ freshId w := by
  intro s hs
  have := le_foldr_max (w.map (fun s => s.rel.id)) s.rel.id
    (List.mem_map_of_mem _ hs)
  unfold freshId
  omega

theorem wGetByTag_ok_mem (w : World) (tag : String) (ex : Release)
    (h : wGetByTag w tag = .ok ex) :
    ∃ s ∈ w, s.rel = ex ∧ ex.tag_name = tag := by
  unfold wGetByTag at h
  cases hg : w.find? (fun s => !s.draft && s.rel.tag_name == tag) with
  | none => rw [hg] at h; exact absurd h (by simp)
  | some s =>
    rw [hg] at h
    have h2 : Except.ok (ε := Nat) s.rel = Except.ok ex := h
    injection h2 with h3
    have hmem := List.mem_of_find?_eq_some hg
    have hpred := List.find?_some hg
    simp at hpred
    exact ⟨s, hmem, h3, by rw [← h3]; exact hpred.2⟩

theorem wFindRelease_ok_mem (w : World) (tag : String) (d : Bool) (ex : Release)
    (h : wFindRelease w tag d = .ok ex) :
    ∃ s ∈ w, s.rel = ex ∧ ex.tag_name = tag := by
  unfold wFindRelease findReleaseT at h
  cases d with
  | false =>
    simp at h
    exact wGetByTag_ok_mem w tag ex h
  | true =>
    rw [if_pos rfl] at h
    cases hs : scanPages tag (paginateList 100 (w.map (fun s => s.rel))) with
    | mk res n =>
      rw [hs] at h
      have hres : res = (w.map (fun s => s.rel)).find? (fun r => r.tag_name == tag) := by
        have h4 := scanPages_paginate tag 100 (w.map (fun s => s.rel))
        rw [hs] at h4
        exact h4
      cases res with
      | some r =>
        have h2 : Except.ok (ε := Nat) r = Except.ok ex := h
        injection h2 with h3
        have hmem := List.mem_of_find?_eq_some hres.symm
        have hpred := List.find?_some hres.symm
        simp at hpred
        obtain ⟨s, hsmem, hsrel⟩ := List.mem_map.mp hmem
        exact ⟨s, hsmem, by rw [hsrel, h3], by rw [← h3]; exact hpred⟩
      | none =>
        have h2 : wGetByTag w tag = Except.ok ex := h
        exact wGetByTag_ok_mem w tag ex h2

theorem wUpdate_preserves (config : Config) (ex : Release) (w : World) (r : Release) (w2 : World)
    (hcount : atMostOnePerTag w) (hu : uniqIds w)
    (hAll : ∀ x ∈ w, x.rel.tag_name = resolvedTag config → x.rel.id = ex.id)
    (hup : wUpdate w (updateParamsOf config ex) = .ok (r, w2)) :
    atMostOnePerTag w2 ∧ uniqIds w2 ∧
    (∀ x ∈ w2, x.rel.tag_name = resolvedTag config → x.rel.id = ex.id) ∧
    (∀ x ∈ w, ∃ y ∈ w2, y.rel.id = x.rel.id ∧
        (y.rel.tag_name = x.rel.tag_name ∨ y.rel.tag_name = resolvedTag config) ∧
        (x.rel.id = ex.id → y.rel.tag_name = resolvedTag config)) := by
  have hw2 : w2 = w.map (fun x => if x.rel.id == (updateParamsOf config ex).release_id
      then applyUpd (updateParamsOf config ex) x else x) := by
    unfold wUpdate at hup
    cases hg : w.find? (fun s => s.rel.id == (updateParamsOf config ex).release_id) with
    | none => rw [hg] at hup; exact absurd hup (by simp)
    | some s =>
      rw [hg] at hup
      have h2 : Except.ok (ε := Nat) ((applyUpd (updateParamsOf config ex) s).rel,
          w.map fun x => if x.rel.id == (updateParamsOf config ex).release_id
            then applyUpd (updateParamsOf config ex) x else x) = Except.ok (r, w2) := hup
      injection h2 with h3
      exact (congrArg Prod.snd h3).symm
  have hrid : (updateParamsOf config ex).release_id = ex.id := rfl
  have hid_pres : ∀ x : SRelease,
      ((if x.rel.id == (updateParamsOf config ex).release_id
        then applyUpd (updateParamsOf config ex) x else x) : SRelease).rel.id = x.rel.id := by
    intro x
    by_cases hxx : (x.rel.id == (updateParamsOf config ex).release_id) = true
    · simp only [hxx, if_true]
      rfl
    · simp only [hxx]
      rw [if_neg (by simp [hxx])]
  have htag_f : ∀ x : SRelease,
      ((if x.rel.id == (updateParamsOf config ex).release_id
        then applyUpd (updateParamsOf config ex) x else x) : SRelease).rel.tag_name
        = x.rel.tag_name ∨
      ((if x.rel.id == (updateParamsOf config ex).release_id
        then applyUpd (updateParamsOf config ex) x else x) : SRelease).rel.tag_name
        = resolvedTag config := by
    intro x
    by_cases hxx : (x.rel.id == (updateParamsOf config ex).release_id) = true
    · right
      simp only [hxx, if_true]
      rfl
    · left
      rw [if_neg (by simp [hxx])]
  have huniq2 : uniqIds w2 := by
    unfold uniqIds
    rw [hw2, List.map_map]
    have hmaps : ((fun s : SRelease => s.rel.id) ∘ fun x =>
        if x.rel.id == (updateParamsOf config ex).release_id
        then applyUpd (updateParamsOf config ex) x else x) = fun s : SRelease => s.rel.id := by
      funext x
      exact hid_pres x
    rw [hmaps]
    exact hu
  have hall2 : ∀ x ∈ w2, x.rel.tag_name = resolvedTag config → x.rel.id = ex.id := by
    rw [hw2]
    intro y hy hytag
    obtain ⟨x, hxmem, hxeq⟩ := List.mem_map.mp hy
    by_cases hxx : (x.rel.id == (updateParamsOf config ex).release_id) = true
    · rw [← hxeq, hid_pres x]
      rw [hrid] at hxx
      exact beq_iff_eq.mp hxx
    · rw [if_neg (by simp [hxx])] at hxeq
      rw [← hxeq]
      apply hAll x hxmem
      rw [← hxeq] at hytag
      exact hytag
  refine ⟨?_, huniq2, hall2, ?_⟩
  · intro t
    by_cases ht : t = resolvedTag config
    · rw [ht]
      exact tagCount_le_one_of_all_id w2 (resolvedTag config) ex.id huniq2 hall2
    · rw [hw2]
      exact le_trans (tagCount_map_le w _ (resolvedTag config) t ht htag_f) (hcount t)
  · intro x hxmem
    refine ⟨(if x.rel.id == (updateParamsOf config ex).release_id
        then applyUpd (updateParamsOf config ex) x else x), ?_, hid_pres x, htag_f x, ?_⟩
    · rw [hw2]
      exact List.mem_map_of_mem _ hxmem
    · intro hxid
      have hxx : (x.rel.id == (updateParamsOf config ex).release_id) = true := by
        rw [hrid]
        exact beq_iff_eq.mpr hxid
      simp only [hxx, if_true]
      rfl


theorem tagCount_append (w1 w2 : World) (t : String) :
    tagCount (w1 ++ w2) t = tagCount w1 t + tagCount w2 t := by
  simp [tagCount, List.filter_append]

theorem wCreate_preserves (config : Config) (w : World) (r : Release) (w2 : World)
    (hcount : atMostOnePerTag w) (hu : uniqIds w)
    (hcr : wCreate w (createParamsOf config) = .ok (r, w2)) :
    atMostOnePerTag w2 ∧ uniqIds w2 ∧
    (∀ x ∈ w, x.rel.tag_name ≠ resolvedTag config) := by
  unfold wCreate at hcr
  by_cases hany : (w.any (fun s => s.rel.tag_name == (createParamsOf config).tag_name)) = true
  · rw [if_pos hany] at hcr
    exact absurd hcr (by simp)
  · rw [if_neg hany] at hcr
    have htagp : (createParamsOf config).tag_name = resolvedTag config := rfl
    have hnone : ∀ x ∈ w, x.rel.tag_name ≠ resolvedTag config := by
      intro x hx hxt
      apply hany
      rw [List.any_eq_true]
      refine ⟨x, hx, ?_⟩
      rw [htagp, hxt]
      exact beq_self_eq_true _
    injection hcr with h3
    have hw2 : w2 = w ++ [createdS w (createParamsOf config)] :=
      (congrArg Prod.snd h3).symm
    have hzero : tagCount w (resolvedTag config) = 0 := by
      rw [tagCount, List.length_eq_zero]
      rw [List.filter_eq_nil_iff]
      intro a ha
      simp
      exact hnone a ha
    refine ⟨?_, ?_, hnone⟩
    · intro t
      rw [hw2, tagCount_append]
      by_cases ht : t = resolvedTag config
      · rw [ht, hzero]
        have hone : tagCount [createdS w (createParamsOf config)] (resolvedTag config) ≤ 1 := by
          rw [tagCount]
          exact le_trans (List.length_filter_le _ _) (by simp)
        omega
      · have hz2 : tagCount [createdS w (createParamsOf config)] t = 0 := by
          rw [tagCount, List.length_eq_zero, List.filter_eq_nil_iff]
          intro a ha
          simp at ha
          rw [ha]
          show ¬((createdS w (createParamsOf config)).rel.tag_name == t) = true
          simp [createdS, createdRel, htagp]
          exact fun hh => ht hh.symm
        rw [hz2]
        have := hcount t
        omega
    · unfold uniqIds
      rw [hw2, List.map_append]
      apply List.Nodup.append hu (by simp)
      intro a ha hb
      simp at hb
      obtain ⟨sx, hsx, hsxid⟩ := List.mem_map.mp ha
      rw [← hsxid] at hb
      exact freshId_not_used w sx hsx (by rw [hb]; rfl)


theorem tStep_preserves (config : Config) (s sOther : TState) (w : World)
    (hcount : atMostOnePerTag w) (hu : uniqIds w)
    (hs : tsInv config s w) (ho : tsInv config sOther w) :
    atMostOnePerTag (tStep config s w).2 ∧ uniqIds (tStep config s w).2 ∧
    tsInv config (tStep config s w).1 (tStep config s w).2 ∧
    tsInv config sOther (tStep config s w).2 := by
  cases s with
  | start =>
    cases hf : wFindRelease w (resolvedTag config) config.input_draft with
    | ok ex =>
      have hstep : tStep config TState.start w = (TState.doUpdate ex, w) := by
        simp [tStep, hf]
      rw [hstep]
      refine ⟨hcount, hu, ?_, ho⟩
      obtain ⟨s0, hs0mem, hs0rel, hs0tag⟩ :=
        wFindRelease_ok_mem w (resolvedTag config) config.input_draft ex hf
      constructor
      · exact ⟨s0, hs0mem, by rw [hs0rel], by rw [hs0rel]; exact hs0tag⟩
      · intro x hx hxtag
        have hxeq : x = s0 := by
          have hflt : (w.filter (fun s => s.rel.tag_name == resolvedTag config)).length ≤ 1 :=
            hcount (resolvedTag config)
          apply eq_of_filter_length_le_one (fun s => s.rel.tag_name == resolvedTag config) w
            hflt hx hs0mem
          · simp [hxtag]
          · simp [hs0rel, hs0tag]
        rw [hxeq, hs0rel]
    | error e =>
      by_cases he : e = 404
      · have hstep : tStep config TState.start w = (TState.doCreate, w) := by
          simp [tStep, hf, he]
        rw [hstep]
        exact ⟨hcount, hu, trivial, ho⟩
      · have hstep : tStep config TState.start w = (TState.done (.error e), w) := by
          simp [tStep, hf, he]
        rw [hstep]
        exact ⟨hcount, hu, trivial, ho⟩
  | doUpdate ex =>
    obtain ⟨⟨x0, hx0mem, hx0id, hx0tag⟩, hAll⟩ := hs
    cases hup : wUpdate w (updateParamsOf config ex) with
    | error e =>
      by_cases he : e = 404
      · have hstep : tStep config (TState.doUpdate ex) w = (TState.doCreate, w) := by
          simp [tStep, hup, he]
        rw [hstep]
        exact ⟨hcount, hu, trivial, ho⟩
      · have hstep : tStep config (TState.doUpdate ex) w = (TState.done (.error e), w) := by
          simp [tStep, hup, he]
        rw [hstep]
        exact ⟨hcount, hu, trivial, ho⟩
    | ok rw2 =>
      obtain ⟨r, w2⟩ := rw2
      have hstep : tStep config (TState.doUpdate ex) w = (TState.done (.ok r), w2) := by
        simp [tStep, hup]
      rw [hstep]
      obtain ⟨hcount2, huniq2, hall2, himg⟩ :=
        wUpdate_preserves config ex w r w2 hcount hu hAll hup
      refine ⟨hcount2, huniq2, trivial, ?_⟩
      cases sOther with
      | doUpdate ex2 =>
        obtain ⟨⟨y0, hy0mem, hy0id, hy0tag⟩, hoAll⟩ := ho
        have hy0ex : y0.rel.id = ex.id := hAll y0 hy0mem hy0tag
        have hexeq : ex2.id = ex.id := by rw [← hy0id, hy0ex]
        constructor
        · obtain ⟨y2, hy2mem, hy2id, _, hy2tag⟩ := himg y0 hy0mem
          exact ⟨y2, hy2mem, by rw [hy2id, hy0id], hy2tag hy0ex⟩
        · intro x hx hxtag
          rw [hall2 x hx hxtag, ← hexeq]
      | start => exact trivial
      | doCreate => exact trivial
      | done res => exact trivial
  | doCreate =>
    cases hcr : wCreate w (createParamsOf config) with
    | error e =>
      have hstep : tStep config TState.doCreate w = (TState.start, w) := by
        simp [tStep, hcr]
      rw [hstep]
      exact ⟨hcount, hu, trivial, ho⟩
    | ok rw2 =>
      obtain ⟨r, w2⟩ := rw2
      have hstep : tStep config TState.doCreate w = (TState.done (.ok r), w2) := by
        simp [tStep, hcr]
      rw [hstep]
      obtain ⟨hcount2, huniq2, hnone⟩ := wCreate_preserves config w r w2 hcount hu hcr
      refine ⟨hcount2, huniq2, trivial, ?_⟩
      cases sOther with
      | doUpdate ex2 =>
        exfalso
        obtain ⟨⟨y0, hy0mem, hy0id, hy0tag⟩, hoAll⟩ := ho
        exact hnone y0 hy0mem hy0tag
      | start => exact trivial
      | doCreate => exact trivial
      | done res => exact trivial
  | done res =>
    have hstep : tStep config (TState.done res) w = (TState.done res, w) := by
      simp [tStep]
    rw [hstep]
    exact ⟨hcount, hu, hs, ho⟩

theorem runSched_preserves (config : Config) :
    ∀ (sched : List Bool) (s1 s2 : TState) (w : World),
      atMostOnePerTag w → uniqIds w → tsInv config s1 w → tsInv config s2 w →
      atMostOnePerTag (runSched config sched (s1, s2, w)).2.2 ∧
      uniqIds (runSched config sched (s1, s2, w)).2.2 ∧
      tsInv config (runSched config sched (s1, s2, w)).1
        (runSched config sched (s1, s2, w)).2.2 ∧
      tsInv config (runSched config sched (s1, s2, w)).2.1
        (runSched config sched (s1, s2, w)).2.2 := by
  intro sched
  induction sched with
  | nil =>
    intro s1 s2 w hcount hu h1 h2
    exact ⟨hcount, hu, h1, h2⟩
  | cons b rest ih =>
    intro s1 s2 w hcount hu h1 h2
    cases b with
    | true =>
      have hpre := tStep_preserves config s1 s2 w hcount hu h1 h2
      have hrun : runSched config (true :: rest) (s1, s2, w) =
          runSched config rest ((tStep config s1 w).1, s2, (tStep config s1 w).2) := by
        simp [runSched]
      rw [hrun]
      exact ih (tStep config s1 w).1 s2 (tStep config s1 w).2
        hpre.1 hpre.2.1 hpre.2.2.1 hpre.2.2.2
    | false =>
      have hpre := tStep_preserves config s2 s1 w hcount hu h2 h1
      have hrun : runSched config (false :: rest) (s1, s2, w) =
          runSched config rest (s1, (tStep config s2 w).1, (tStep config s2 w).2) := by
        simp [runSched]
      rw [hrun]
      exact ih s1 (tStep config s2 w).1 (tStep config s2 w).2
        hpre.1 hpre.2.1 hpre.2.2.2 hpre.2.2.1

/-- Claim C5: after any interleaved run of two `release()` invocations for the
same tag over the modelled service (createRelease enforcing the service's
atomicity on tags), at most one release per tag exists, provided the initial
state satisfied that invariant; in particular the double
create-then-conflict-then-found schedule, started from an empty state, ends
with exactly one release carrying the tag. -/
theorem c5_at_most_one_release_per_tag :
    (∀ (config : Config) (sched : List Bool) (w : World),
        atMostOnePerTag w → uniqIds w →
        atMostOnePerTag (runSched config sched (TState.start, TState.start, w)).2.2)
  ∧ ((runSched cfg0 [true, false, true, false, false, false]
        (TState.start, TState.start, [])).2.2.length = 1 ∧
     tagCount (runSched cfg0 [true, false, true, false, false, false]
        (TState.start, TState.start, [])).2.2 "v1" = 1) := by
  refine ⟨?_, by decide, by decide⟩
  intro config sched w hcount hu
  exact (runSched_preserves config sched TState.start TState.start w hcount hu trivial trivial).1

theorem c5_witness :
    atMostOnePerTag (runSched cfg0 [false, true, true]
      (TState.start, TState.start, [])).2.2 :=
  c5_at_most_one_release_per_tag.1 cfg0 [false, true, true] []
    (fun t => by simp [tagCount]) (by simp [uniqIds])

/-! ## Instrumented release and the run model -/

theorem releaseT_fst (config : Config) (o : Releaser) :
    ∀ fuel i, (releaseT fuel config o i).1 = release fuel config o i := by
  intro fuel
  induction fuel with
  | zero => intro i; rfl
  | succ fuel ih =>
    intro i
    cases hf : o.findResp i (findParamsOf config) with
    | ok ex =>
      cases hu : o.updateResp i (updateParamsOf config ex) with
      | ok r => simp [releaseT, release, hf, hu]
      | error e =>
        by_cases he : e = 404
        · subst he
          cases hc : o.createResp i (createParamsOf config) with
          | ok r => simp [releaseT, release, hf, hu, hc]
          | error e2 => simp [releaseT, release, hf, hu, hc, ih]
        · simp [releaseT, release, hf, hu, he]
    | error e =>
      by_cases he : e = 404
      · subst he
        cases hc : o.createResp i (createParamsOf config) with
        | ok r => simp [releaseT, release, hf, hc]
        | error e2 => simp [releaseT, release, hf, hc, ih]
      · simp [releaseT, release, hf, he]

theorem releaseT_no_publish (config : Config) (o : Releaser) :
    ∀ fuel i, ((releaseT fuel config o i).2).filter isPublishEv = [] := by
  intro fuel
  induction fuel with
  | zero => intro i; rfl
  | succ fuel ih =>
    intro i
    cases hf : o.findResp i (findParamsOf config) with
    | ok ex =>
      cases hu : o.updateResp i (updateParamsOf config ex) with
      | ok r => simp [releaseT, hf, hu, isPublishEv]
      | error e =>
        by_cases he : e = 404
        · subst he
          cases hc : o.createResp i (createParamsOf config) with
          | ok r => simp [releaseT, hf, hu, hc, isPublishEv]
          | error e2 => simp [releaseT, hf, hu, hc, isPublishEv, List.filter_append, ih]
        · simp [releaseT, hf, hu, he, isPublishEv]
    | error e =>
      by_cases he : e = 404
      · subst he
        cases hc : o.createResp i (createParamsOf config) with
        | ok r => simp [releaseT, hf, hc, isPublishEv]
        | error e2 => simp [releaseT, hf, hc, isPublishEv, List.filter_append, ih]
      · simp [releaseT, hf, he, isPublishEv]

theorem releaseT_has_find (config : Config) (o : Releaser) (fuel i : Nat) :
    REvent.apiFind i ∈ (releaseT (fuel + 1) config o i).2 := by
  cases hf : o.findResp i (findParamsOf config) with
  | ok ex =>
    cases hu : o.updateResp i (updateParamsOf config ex) with
    | ok r => simp [releaseT, hf, hu]
    | error e =>
      by_cases he : e = 404
      · subst he
        cases hc : o.createResp i (createParamsOf config) with
        | ok r => simp [releaseT, hf, hu, hc]
        | error e2 => simp [releaseT, hf, hu, hc]
      · simp [releaseT, hf, hu, he]
  | error e =>
    by_cases he : e = 404
    · subst he
      cases hc : o.createResp i (createParamsOf config) with
      | ok r => simp [releaseT, hf, hc]
      | error e2 => simp [releaseT, hf, hc]
    · simp [releaseT, hf, he]

theorem filter_publish_warnUnmatched (l : List String) :
    ((l.map (fun p => REvent.warnUnmatched p)).filter isPublishEv) = [] := by
  rw [List.filter_eq_nil_iff]
  intro e he
  obtain ⟨p, hp, rfl⟩ := List.mem_map.mp he
  simp [isPublishEv]

theorem filter_publish_upload (l : List String) :
    ((l.map (fun p => REvent.apiUpload p)).filter isPublishEv) = [] := by
  rw [List.filter_eq_nil_iff]
  intro e he
  obtain ⟨p, hp, rfl⟩ := List.mem_map.mp he
  simp [isPublishEv]

theorem runModel_no_publish (relFuel : Nat) (cfg : Config) (fs : Fs) (o : Releaser) :
    ((runModel relFuel cfg fs o).2).filter isPublishEv = [] := by
  unfold runModel
  by_cases h1 : cfg.input_tag_name = "" ∧ ¬ (isTag cfg.github_ref = true)
  · rw [if_pos h1]
    rfl
  · rw [if_neg h1]
    have hwarn : ((if cfg.input_files ≠ [] then
        (unmatchedPatterns fs cfg.input_files).map (fun p => REvent.warnUnmatched p)
        else []).filter isPublishEv) = [] := by
      by_cases h3 : cfg.input_files ≠ []
      · rw [if_pos h3]
        exact filter_publish_warnUnmatched _
      · rw [if_neg h3]
        rfl
    by_cases h2 : cfg.input_files ≠ [] ∧ unmatchedPatterns fs cfg.input_files ≠ [] ∧
        cfg.input_fail_on_unmatched_files = true
    · rw [if_pos h2]
      exact hwarn
    · rw [if_neg h2]
      cases hrel : releaseT relFuel
          (if cfg.input_draft_until_assets_uploaded then { cfg with input_draft := true } else cfg)
          o 0 with
      | mk res evs =>
        have hevs : evs.filter isPublishEv = [] := by
          have h4 := releaseT_no_publish
            (if cfg.input_draft_until_assets_uploaded then { cfg with input_draft := true } else cfg)
            o relFuel 0
          rw [hrel] at h4
          exact h4
        cases res with
        | none =>
          simp only [hrel]
          rw [List.filter_append, hwarn, hevs]
          rfl
        | some exr =>
          cases exr with
          | error e =>
            simp only [hrel]
            rw [List.filter_append, hwarn, hevs]
            rfl
          | ok rel =>
            have hpub : (if (if cfg.input_draft_until_assets_uploaded
                then { cfg with input_draft := true } else cfg).input_draft_until_assets_uploaded = true ∧
                ¬ ((if cfg.input_draft_until_assets_uploaded
                then { cfg with input_draft := true } else cfg).input_draft = true)
                then [REvent.apiPublish rel.id] else ([] : List REvent)) = [] := by
              by_cases hflag : cfg.input_draft_until_assets_uploaded = true
              · rw [if_neg]
                intro hcontra
                apply hcontra.2
                simp [hflag]
              · rw [if_neg]
                intro hcontra
                apply hflag
                have h5 := hcontra.1
                rw [if_neg (by simpa using hflag)] at h5
                exact h5
            have hupl : ((if (if cfg.input_draft_until_assets_uploaded
                then { cfg with input_draft := true } else cfg).input_files ≠ [] then
                  if (pathsOf fs (if cfg.input_draft_until_assets_uploaded
                    then { cfg with input_draft := true } else cfg).input_files).length = 0
                  then [REvent.warnNoFiles]
                  else (pathsOf fs (if cfg.input_draft_until_assets_uploaded
                    then { cfg with input_draft := true } else cfg).input_files).map
                      (fun p => REvent.apiUpload p)
                else ([] : List REvent)).filter isPublishEv) = [] := by
              by_cases h6 : (if cfg.input_draft_until_assets_uploaded
                  then { cfg with input_draft := true } else cfg).input_files ≠ []
              · rw [if_pos h6]
                by_cases h7 : (pathsOf fs (if cfg.input_draft_until_assets_uploaded
                    then { cfg with input_draft := true } else cfg).input_files).length = 0
                · rw [if_pos h7]
                  rfl
                · rw [if_neg h7]
                  exact filter_publish_upload _
              · rw [if_neg h6]
                rfl
            simp only [hrel]
            rw [hpub, List.append_nil, List.filter_append, List.filter_append, hwarn, hevs, hupl]
            rfl

theorem filter_api_warnUnmatched (l : List String) :
    ((l.map (fun p => REvent.warnUnmatched p)).filter isApiEv) = [] := by
  rw [List.filter_eq_nil_iff]
  intro e he
  obtain ⟨p, hp, rfl⟩ := List.mem_map.mp he
  simp [isApiEv]

/-! ## C4: the draft-until-uploaded publish step -/

/-- Claim C4 is refuted by the code: `let initialConfig = config`
(src/main.ts line 46) aliases the config object, so forcing
`initialConfig.input_draft = true` (line 49) also makes `config.input_draft`
true, and the publish condition `config.input_draft_until_assets_uploaded &&
!config.input_draft` (line 62) is false in every run: `publishRelease` is
never called.  Concretely, a run with the flag enabled and `draft=false`
requested succeeds only because the create was forced to `draft=true` (the
releaser accepts draft creates only), and its trace holds no publish call;
generally, no trace of `runModel` ever holds one. -/
theorem c4_publish_never_issued :
    runModel 1 cfg4 fs0 oDraftCheck =
      (RunOutcome.success "h" "u", [REvent.apiFind 0, REvent.apiCreate 0]) ∧
    (∀ (relFuel : Nat) (cfg : Config) (fs : Fs) (o : Releaser),
      ((runModel relFuel cfg fs o).2).filter isPublishEv = []) :=
  ⟨by decide, fun relFuel cfg fs o => runModel_no_publish relFuel cfg fs o⟩

/-! ## C7: unmatched file patterns warn or gate the run -/

/-- Claim C7: when some input pattern matches no files and the tag requirement
holds, a run with the strict flag unset emits the warning for that pattern and
still reaches the remote (the first findRelease call appears in its trace);
with the flag set the run fails with the unmatched-files message and its trace
holds no remote call at all (src/main.ts lines 13-21). -/
theorem c7_unmatched_patterns_gate :
    ∀ (relFuel : Nat) (cfg : Config) (fs : Fs) (o : Releaser) (p : String),
      p ∈ cfg.input_files → fs.globMatches p = [] →
      ¬ (cfg.input_tag_name = "" ∧ ¬ (isTag cfg.github_ref = true)) →
      (cfg.input_fail_on_unmatched_files = false →
        REvent.warnUnmatched p ∈ (runModel (relFuel + 1) cfg fs o).2 ∧
        REvent.apiFind 0 ∈ (runModel (relFuel + 1) cfg fs o).2) ∧
      (cfg.input_fail_on_unmatched_files = true →
        (runModel (relFuel + 1) cfg fs o).1 = .failed "There were unmatched files" ∧
        ((runModel (relFuel + 1) cfg fs o).2).filter isApiEv = []) := by
  intro relFuel cfg fs o p hpmem hpempty htag
  have hfiles : cfg.input_files ≠ [] := fun h => by
    rw [h] at hpmem
    exact absurd hpmem (List.not_mem_nil p)
  have hpunm : p ∈ unmatchedPatterns fs cfg.input_files :=
    List.mem_filter.mpr ⟨hpmem, by simp [hpempty]⟩
  have hunm : unmatchedPatterns fs cfg.input_files ≠ [] := fun h => by
    rw [h] at hpunm
    exact absurd hpunm (List.not_mem_nil p)
  constructor
  · intro hflag
    unfold runModel
    rw [if_neg htag]
    have h2 : ¬ (cfg.input_files ≠ [] ∧ unmatchedPatterns fs cfg.input_files ≠ [] ∧
        cfg.input_fail_on_unmatched_files = true) := by
      intro hcontra
      rw [hflag] at hcontra
      exact Bool.false_ne_true hcontra.2.2
    rw [if_neg h2]
    cases hrel : releaseT (relFuel + 1)
        (if cfg.input_draft_until_assets_uploaded then { cfg with input_draft := true } else cfg)
        o 0 with
    | mk res evs =>
      have hwmem : REvent.warnUnmatched p ∈ (if cfg.input_files ≠ [] then
          (unmatchedPatterns fs cfg.input_files).map (fun q => REvent.warnUnmatched q)
          else []) := by
        rw [if_pos hfiles]
        exact List.mem_map_of_mem _ hpunm
      have hfind : REvent.apiFind 0 ∈ evs := by
        have h3 := releaseT_has_find
          (if cfg.input_draft_until_assets_uploaded then { cfg with input_draft := true } else cfg)
          o relFuel 0
        rw [hrel] at h3
        exact h3
      cases res with
      | none =>
        simp only [hrel]
        exact ⟨List.mem_append.mpr (.inl hwmem), List.mem_append.mpr (.inr hfind)⟩
      | some exr =>
        cases exr with
        | error e =>
          simp only [hrel]
          exact ⟨List.mem_append.mpr (.inl hwmem), List.mem_append.mpr (.inr hfind)⟩
        | ok rel =>
          simp only [hrel]
          constructor
          · exact List.mem_append.mpr
              (.inl (List.mem_append.mpr (.inl (List.mem_append.mpr (.inl hwmem)))))
          · exact List.mem_append.mpr
              (.inl (List.mem_append.mpr (.inl (List.mem_append.mpr (.inr hfind)))))
  · intro hflag
    unfold runModel
    rw [if_neg htag]
    have h2 : cfg.input_files ≠ [] ∧ unmatchedPatterns fs cfg.input_files ≠ [] ∧
        cfg.input_fail_on_unmatched_files = true := ⟨hfiles, hunm, hflag⟩
    rw [if_pos h2]
    refine ⟨rfl, ?_⟩
    rw [if_pos hfiles]
    exact filter_api_warnUnmatched _

theorem afterLastDot_append_zip (xs : List Char) :
    afterLastDot (xs ++ ('.' :: ['z', 'i', 'p'])) = some ['z', 'i', 'p'] := by
  induction xs with
  | nil => rfl
  | cons c cs ih => simp [afterLastDot, ih]


/-- Witness for C7 at concrete inputs: the pattern list ["dist/*.bin"] against
an empty filesystem warns and proceeds without the flag, and fails before any
remote call with it. -/
theorem c7_witness :
    (REvent.warnUnmatched "dist/*.bin" ∈ (runModel 1 cfg7a fs0 oP404).2 ∧
     REvent.apiFind 0 ∈ (runModel 1 cfg7a fs0 oP404).2) ∧
    ((runModel 1 cfg7b fs0 oP404).1 = RunOutcome.failed "There were unmatched files" ∧
     ((runModel 1 cfg7b fs0 oP404).2).filter isApiEv = []) :=
  ⟨(c7_unmatched_patterns_gate 0 cfg7a fs0 oP404 "dist/*.bin"
      (by decide) rfl (by decide)).1 rfl,
   (c7_unmatched_patterns_gate 0 cfg7b fs0 oP404 "dist/*.bin"
      (by decide) rfl (by decide)).2 rfl⟩

/-! ## C8: the MIME guess -/

/-- Claim C8: `mimeOrDefault` yields the zip MIME type for every path ending
in ".zip", and the generic binary fallback "application/octet-stream" for
every path whose extension has no entry in the MIME table (and for paths with
no extension at all), src/github.ts lines 149-151. -/
theorem c8_mime_or_default :
    (∀ p : String, mimeOrDefault (p ++ ".zip") = "application/zip") ∧
    (∀ p : String, getType p = none → mimeOrDefault p = "application/octet-stream") ∧
    (∀ (p e : String), afterLastDot p.data = some e.data →
      mimeDb.find? (fun kv => kv.1 == e) = none →
      mimeOrDefault p = "application/octet-stream") := by
  refine ⟨?_, ?_, ?_⟩
  · intro p
    unfold mimeOrDefault getType
    rw [String.data_append]
    have h1 : (".zip" : String).data = '.' :: ['z', 'i', 'p'] := rfl
    rw [h1, afterLastDot_append_zip]
    decide
  · intro p h
    unfold mimeOrDefault
    rw [h]
    rfl
  · intro p e h1 h2
    unfold mimeOrDefault getType
    rw [h1]
    have h3 : String.mk e.data = e := by cases e; rfl
    show (Option.map (fun kv => kv.2)
        (mimeDb.find? (fun kv => kv.1 == String.mk e.data))).getD "application/octet-stream" =
      "application/octet-stream"
    rw [h3, h2]
    rfl

theorem c8_witness :
    mimeOrDefault ("file" ++ ".zip") = "application/zip" ∧
    mimeOrDefault "file.xyz" = "application/octet-stream" :=
  ⟨c8_mime_or_default.1 "file",
   c8_mime_or_default.2.2 "file.xyz" "xyz" (by decide) (by decide)⟩

/-! ## C10: publishing changes only the draft flag -/

/-- Claim C10: `publishRelease` sends an update carrying only owner, repo, the
given release identifier and `draft := false`; tag_name, target_commitish,
name, body and prerelease are all left out, so under the partial-update
semantics every stored field of the release other than the draft flag is
unchanged by publishing (src/github.ts lines 241-256). -/
theorem c10_publish_frame :
    ∀ (config : Config) (releaseId : Nat) (s : SRelease),
      (publishParamsOf config releaseId).release_id = releaseId ∧
      (publishParamsOf config releaseId).draft = some false ∧
      (publishParamsOf config releaseId).tag_name = none ∧
      (publishParamsOf config releaseId).target_commitish = none ∧
      (publishParamsOf config releaseId).name = none ∧
      (publishParamsOf config releaseId).body = none ∧
      (publishParamsOf config releaseId).prerelease = none ∧
      applyUpd (publishParamsOf config releaseId) s =
        { rel := s.rel, draft := false, prerelease := s.prerelease } := by
  intro config releaseId s
  refine ⟨rfl, rfl, rfl, rfl, rfl, rfl, rfl, rfl⟩
